import Mathlib

/-!
Verification development for the `shared-memory-store` native addon
(`src/memorystore.cpp`): an in-process key-value store with per-entry TTL,
lazy eviction on read, a background sweeper, and mutable key handles
implemented as JS `Proxy` objects.

The C++ store is shallowly embedded: machine time (`steady_clock::now()`)
is passed to each operation as an explicit `Nat` of milliseconds, the
`unordered_map` is an association list with unique keys, and the
`time_point::max()` "never expires" sentinel is `Option.none`.  JS values
that can appear as keys are embedded as an inductive type; host outcomes
that the addon merely consumes (the result of `JSON.stringify`) are carried
as data on the corresponding constructor.
-/

/-- A JavaScript value in a key position, as the addon distinguishes them:
`null`, `undefined`, strings, numbers, booleans, plain objects, and the
mutable-key `Proxy` produced by `createMutableKey`.

* `jsObj keyId stringifyResult`: a plain object; `keyId` is `some s` when the
  object has a string-valued `__keyId` own property, and `stringifyResult` is
  the outcome of the host's `JSON.stringify` on it (`none` when stringify
  fails or yields a non-string, e.g. for a function or a circular object).
* `jsProxy keyId currentValue`: the proxy from `createMutableKey`; its target
  holds `__keyId = keyId` and `value = currentValue`, and its `get` trap
  returns `currentValue` for every property other than `toString`/`valueOf`. -/
inductive JSKey where
  | jsNull
  | jsUndefined
  | jsStr (s : String)
  | jsNum (n : Int)
  | jsBool (b : Bool)
  | jsObj (keyId : Option String) (stringifyResult : Option String)
  | jsProxy (keyId : String) (currentValue : JSKey)
deriving Repr, DecidableEq

/-- The host's `JSON.stringify`, modelled for the shapes the addon feeds it.
`none` means stringify produced no string (`undefined`).  For the proxy,
stringify reads the target's own keys `value` and `__keyId`, and the proxy's
`get` trap answers both reads with `currentValue`; host string escaping is
elided (no key in this development needs it). -/
def jsonOf : JSKey → Option String
  | JSKey.jsNull => some "null"
  | JSKey.jsUndefined => none
  | JSKey.jsStr s => some ("\"" ++ s ++ "\"")
  | JSKey.jsNum n => some (toString n)
  | JSKey.jsBool b => some (cond b "true" "false")
  | JSKey.jsObj _ r => r
  | JSKey.jsProxy _ cv =>
      match jsonOf cv with
      | some j => some ("\x7b\"value\":" ++ j ++ ",\"__keyId\":" ++ j ++ "\x7d")
      | none => some "\x7b\x7d"

/-- `MemoryStore::SafeGetString` (memorystore.cpp lines 33-76): null and
undefined map to `""`; strings pass through; numbers via `std::to_string`
on the double value (integral doubles render with six decimals); booleans to
`"true"`/`"false"`; an object whose `__keyId` property reads as a string maps
to that string (for the proxy, the `get` trap answers the `__keyId` read with
`currentValue`); otherwise `JSON.stringify`, and `"[object Object]"` when
that yields no string or throws. -/
def SafeGetString : JSKey → String
  | JSKey.jsNull => ""
  | JSKey.jsUndefined => ""
  | JSKey.jsStr s => s
  | JSKey.jsNum n => toString n ++ ".000000"
  | JSKey.jsBool b => cond b "true" "false"
  | JSKey.jsObj (some kid) _ => kid
  | JSKey.jsObj none r =>
      match r with
      | some s => s
      | none => "[object Object]"
  | JSKey.jsProxy kid cv =>
      match cv with
      | JSKey.jsStr s => s
      | _ =>
          match jsonOf (JSKey.jsProxy kid cv) with
          | some s => s
          | none => "[object Object]"

/-- The key-determination logic shared by `Set`, `Get`, `Has` and `Delete`
(memorystore.cpp lines 269-295, 327-341, 371-385, 415-429): for a non-string
object whose `__keyId` property reads as a string, that string is used
directly (for the proxy this read goes through the `get` trap and returns
`currentValue`); every other input goes through `SafeGetString`.  In `Set`
both branches of the `keyWrappers.find` lookup assign the same `keyId`, so
all four methods compute the same identity. -/
def resolveKey : JSKey → String
  | JSKey.jsProxy kid cv =>
      match cv with
      | JSKey.jsStr s => s
      | _ => SafeGetString (JSKey.jsProxy kid cv)
  | JSKey.jsObj (some kid) _ => kid
  | k => SafeGetString k

/-- `MemoryStore::StoreItem` (memorystore.cpp lines 18-24).  `expiresAt` is
`some t` for an absolute monotonic deadline in milliseconds and `none` for
the `steady_clock::time_point::max()` "never expires" sentinel. -/
structure StoreItem (V : Type) where
  value : V
  keyRef : JSKey
  isPermanent : Bool
  expiresAt : Option Nat
  maxAgeMs : Nat
deriving Repr, DecidableEq

/-- The options object of `Set` (memorystore.cpp lines 254-267). -/
structure SetOptions where
  isPermanent : Bool
  maxAgeMs : Nat
deriving Repr, DecidableEq

/-- The defaults `Set` starts from when no options object is passed:
`isPermanent = true`, `maxAgeMs = 0`. -/
def defaultOptions : SetOptions := ⟨true, 0⟩

/-- The store state: the entry table, the `keyWrappers` side table
(id ↦ `KeyWrapper.keyString`), the sweeper flag (`stopCleanup = true` means
the sweeper is stopped) and the configured sweep interval. -/
structure MemoryStore (V : Type) where
  store : List (String × StoreItem V)
  keyWrappers : List (String × String)
  stopCleanup : Bool
  cleanupIntervalMs : Nat
deriving Repr, DecidableEq

/-- A freshly constructed store (memorystore.cpp lines 127-138):
`stopCleanup(true)`, `cleanupIntervalMs(60000)`, empty tables. -/
def MemoryStore.init (V : Type) : MemoryStore V := ⟨[], [], true, 60000⟩

/-- `unordered_map::insert_or_assign`: replace the binding for `k` if one
exists, otherwise append a fresh one. -/
def assocInsert {A : Type} (k : String) (v : A) :
    List (String × A) → List (String × A)
  | [] => [(k, v)]
  | (k', v') :: rest =>
      if k' = k then (k, v) :: rest else (k', v') :: assocInsert k v rest

/-- `unordered_map::find` returning the mapped value. -/
def assocLookup {A : Type} (k : String) : List (String × A) → Option A
  | [] => none
  | (k', v') :: rest => if k' = k then some v' else assocLookup k rest

/-- `unordered_map::erase` of the (unique) binding for `k`. -/
def assocErase {A : Type} (k : String) : List (String × A) → List (String × A)
  | [] => []
  | (k', v') :: rest => if k' = k then rest else (k', v') :: assocErase k rest

/-- `now >= it.expiresAt` on the embedded deadline: never true against the
`time_point::max()` sentinel. -/
def deadlinePassed (now : Nat) : Option Nat → Bool
  | some e => decide (e ≤ now)
  | none => false

/-- `now < it.expiresAt` on the embedded deadline: always true against the
`time_point::max()` sentinel. -/
def deadlineAhead (now : Nat) : Option Nat → Bool
  | some e => decide (now < e)
  | none => true

/-- The `StoreItem` built by `Set` (memorystore.cpp lines 297-307):
`expiresAt = now + maxAgeMs` when the item is neither permanent nor
zero-TTL, else the "never" sentinel. -/
def mkStoreItem {V : Type} (now : Nat) (key : JSKey) (v : V)
    (opts : SetOptions) : StoreItem V :=
  { value := v
    keyRef := key
    isPermanent := opts.isPermanent
    maxAgeMs := opts.maxAgeMs
    expiresAt :=
      if !opts.isPermanent && decide (0 < opts.maxAgeMs) then
        some (now + opts.maxAgeMs)
      else
        none }

/-- `MemoryStore::Set` (memorystore.cpp lines 243-315): resolve the key,
build the item, `insert_or_assign` it, return `true`. -/
def MemoryStore.set {V : Type} (st : MemoryStore V) (now : Nat) (key : JSKey)
    (v : V) (opts : SetOptions) : MemoryStore V × Bool :=
  let keyString := resolveKey key
  ({ st with store := assocInsert keyString (mkStoreItem now key v opts) st.store },
   true)

/-- `MemoryStore::Get` (memorystore.cpp lines 317-359): resolve the key and
look it up; a found item that is not permanent, has a positive TTL, and whose
deadline has passed is erased and `undefined` is returned; otherwise the
stored value is returned. -/
def MemoryStore.get {V : Type} (st : MemoryStore V) (now : Nat) (key : JSKey) :
    MemoryStore V × Option V :=
  let keyString := resolveKey key
  match assocLookup keyString st.store with
  | some it =>
      if !it.isPermanent && decide (0 < it.maxAgeMs) then
        if deadlinePassed now it.expiresAt then
          ({ st with store := assocErase keyString st.store }, none)
        else
          (st, some it.value)
      else
        (st, some it.value)
  | none => (st, none)

/-- `MemoryStore::Has` (memorystore.cpp lines 361-403): same lookup and lazy
eviction as `Get`, returning a boolean. -/
def MemoryStore.has {V : Type} (st : MemoryStore V) (now : Nat) (key : JSKey) :
    MemoryStore V × Bool :=
  let keyString := resolveKey key
  match assocLookup keyString st.store with
  | some it =>
      if !it.isPermanent && decide (0 < it.maxAgeMs) then
        if deadlinePassed now it.expiresAt then
          ({ st with store := assocErase keyString st.store }, false)
        else
          (st, true)
      else
        (st, true)
  | none => (st, false)

/-- `MemoryStore::Delete` (memorystore.cpp lines 405-440): erase the binding
if present, expired or not, and report whether a removal occurred. -/
def MemoryStore.del {V : Type} (st : MemoryStore V) (key : JSKey) :
    MemoryStore V × Bool :=
  let keyString := resolveKey key
  match assocLookup keyString st.store with
  | some _ => ({ st with store := assocErase keyString st.store }, true)
  | none => (st, false)

/-- `MemoryStore::Clear` (memorystore.cpp lines 442-449). -/
def MemoryStore.clear {V : Type} (st : MemoryStore V) : MemoryStore V × Bool :=
  ({ st with store := [] }, true)

/-- `MemoryStore::Size` (memorystore.cpp lines 451-456): the raw
`store.size()`, read under the lock with no mutation. -/
def MemoryStore.size {V : Type} (st : MemoryStore V) : MemoryStore V × Nat :=
  (st, st.store.length)

/-- The enumeration guard of `Keys`, `GetKeys` and `All` (memorystore.cpp
lines 468, 492, 505, 524, 537):
`isPermanent || maxAgeMs == 0 || now < expiresAt`. -/
def StoreItem.isLive {V : Type} (now : Nat) (it : StoreItem V) : Bool :=
  it.isPermanent || decide (it.maxAgeMs = 0) || deadlineAhead now it.expiresAt

/-- `MemoryStore::Keys` (memorystore.cpp lines 458-480): the canonical
identities of the entries passing the liveness guard, in table order; the
table itself is only read. -/
def MemoryStore.keys {V : Type} (st : MemoryStore V) (now : Nat) :
    MemoryStore V × List String :=
  (st, (st.store.filter (fun p => StoreItem.isLive now p.2)).map Prod.fst)

/-- `MemoryStore::All` (memorystore.cpp lines 514-544): the stored values of
the entries passing the liveness guard, in table order; the table itself is
only read. -/
def MemoryStore.all {V : Type} (st : MemoryStore V) (now : Nat) :
    MemoryStore V × List V :=
  (st, (st.store.filter (fun p => StoreItem.isLive now p.2)).map
    (fun p => p.2.value))

/-- `MemoryStore::GetKeys` (memorystore.cpp lines 482-512): the original key
representations (`keyRef`) of the entries passing the liveness guard. -/
def MemoryStore.getKeys {V : Type} (st : MemoryStore V) (now : Nat) :
    MemoryStore V × List JSKey :=
  (st, (st.store.filter (fun p => StoreItem.isLive now p.2)).map
    (fun p => p.2.keyRef))

/-- `MemoryStore::CleanupExpiredItems` (memorystore.cpp lines 585-596): one
sweeper pass, erasing every entry that is not permanent, has a positive TTL,
and whose deadline has passed. -/
def MemoryStore.cleanupExpiredItems {V : Type} (st : MemoryStore V)
    (now : Nat) : MemoryStore V :=
  { st with
      store := st.store.filter
        (fun p => !(!p.2.isPermanent && decide (0 < p.2.maxAgeMs) &&
          deadlinePassed now p.2.expiresAt)) }

/-- `MemoryStore::StartCleanupTask` (memorystore.cpp lines 546-566): a
numeric argument overwrites `cleanupIntervalMs` first; only then is the
running state checked, returning `false` when already running and otherwise
clearing `stopCleanup` and launching the worker. -/
def MemoryStore.startCleanupTask {V : Type} (st : MemoryStore V)
    (intervalArg : Option Nat) : MemoryStore V × Bool :=
  let st1 :=
    match intervalArg with
    | some n => { st with cleanupIntervalMs := n }
    | none => st
  if !st1.stopCleanup then
    (st1, false)
  else
    ({ st1 with stopCleanup := false }, true)

/-- `MemoryStore::StopCleanupTask` (memorystore.cpp lines 568-583). -/
def MemoryStore.stopCleanupTask {V : Type} (st : MemoryStore V) :
    MemoryStore V × Bool :=
  if st.stopCleanup then (st, false)
  else ({ st with stopCleanup := true }, true)

/-- `MemoryStore::CreateMutableKey` (memorystore.cpp lines 149-241): the id
is `"key_" + std::to_string(steady_clock::now().time_since_epoch().count())`
— the clock sample is the operation's explicit time argument here — the
wrapper is registered under that id (`operator[]` insert-or-assign), and the
returned proxy's target holds `__keyId = uniqueId` and
`value = initialValue`. -/
def MemoryStore.createMutableKey {V : Type} (st : MemoryStore V)
    (clockSample : Nat) (initialValue : JSKey) : MemoryStore V × JSKey :=
  let uniqueId := "key_" ++ toString clockSample
  ({ st with keyWrappers := assocInsert uniqueId uniqueId st.keyWrappers },
   JSKey.jsProxy uniqueId initialValue)

/-- The proxy handler's `set` trap (memorystore.cpp lines 213-228): assigning
any property stores the new value into the target's `value` slot and leaves
the `__keyId` and the `keyWrappers` table untouched. -/
def proxySetValue : JSKey → JSKey → JSKey
  | JSKey.jsProxy kid _, newValue => JSKey.jsProxy kid newValue
  | k, _ => k

/-- The `id` of a mutable-key handle (the `__keyId` of the proxy's target). -/
def handleId : JSKey → String
  | JSKey.jsProxy kid _ => kid
  | _ => ""

/-- One foreground or sweeper operation, with its clock reading. -/
inductive StoreOp (V : Type) where
  | opSet (now : Nat) (key : JSKey) (v : V) (opts : SetOptions)
  | opGet (now : Nat) (key : JSKey)
  | opHas (now : Nat) (key : JSKey)
  | opDelete (key : JSKey)
  | opClear
  | opKeys (now : Nat)
  | opAll (now : Nat)
  | opGetKeys (now : Nat)
  | opSize
  | opCleanup (now : Nat)
  | opStart (intervalArg : Option Nat)
  | opStop
  | opCreateKey (clockSample : Nat) (initialValue : JSKey)

/-- The state transition of one operation. -/
def applyOp {V : Type} (st : MemoryStore V) : StoreOp V → MemoryStore V
  | StoreOp.opSet now k v o => (st.set now k v o).1
  | StoreOp.opGet now k => (st.get now k).1
  | StoreOp.opHas now k => (st.has now k).1
  | StoreOp.opDelete k => (st.del k).1
  | StoreOp.opClear => st.clear.1
  | StoreOp.opKeys now => (st.keys now).1
  | StoreOp.opAll now => (st.all now).1
  | StoreOp.opGetKeys now => (st.getKeys now).1
  | StoreOp.opSize => st.size.1
  | StoreOp.opCleanup now => st.cleanupExpiredItems now
  | StoreOp.opStart i => (st.startCleanupTask i).1
  | StoreOp.opStop => st.stopCleanupTask.1
  | StoreOp.opCreateKey t iv => (st.createMutableKey t iv).1

/-- Run a sequence of operations from a starting state. -/
def runOps {V : Type} (st : MemoryStore V) : List (StoreOp V) → MemoryStore V
  | [] => st
  | op :: rest => runOps (applyOp st op) rest

/-- The §3 entry invariant: `expiresAt` is the "never" sentinel iff the entry
is permanent or zero-TTL. -/
def ttlInvariant {V : Type} (st : MemoryStore V) : Prop :=
  ∀ p ∈ st.store,
    ((p.2 : StoreItem V).expiresAt = none ↔
      (p.2.isPermanent = true ∨ p.2.maxAgeMs = 0))

/-- Key uniqueness of the entry table (what `unordered_map` guarantees). -/
def StoreWF {V : Type} (st : MemoryStore V) : Prop :=
  (st.store.map Prod.fst).Nodup

/-- The exclusion predicate as the spec words it for enumeration: the entry
is not permanent, has a positive TTL, and its deadline has passed. -/
def StoreItem.specExpired {V : Type} (now : Nat) (it : StoreItem V) : Bool :=
  !it.isPermanent && decide (0 < it.maxAgeMs) && deadlinePassed now it.expiresAt

theorem isLive_eq_not_specExpired {V : Type} (now : Nat) (it : StoreItem V) :
    StoreItem.isLive now it = !StoreItem.specExpired now it := by
  unfold StoreItem.isLive StoreItem.specExpired
  cases hp : it.isPermanent
  · cases he : it.expiresAt with
    | none => simp [deadlinePassed, deadlineAhead]
    | some e =>
        rw [Bool.eq_iff_iff]
        simp only [deadlinePassed, deadlineAhead, Bool.not_false, Bool.true_and,
          Bool.or_eq_true, Bool.not_eq_true', Bool.and_eq_true,
          decide_eq_true_eq, decide_eq_false_iff_not, Bool.and_eq_false_iff,
          Bool.false_eq_true, false_or]
        omega
  · simp [deadlinePassed, deadlineAhead]
theorem assocLookup_insert_self {A : Type} (k : String) (v : A)
    (l : List (String × A)) :
    assocLookup k (assocInsert k v l) = some v := by
  induction l with
  | nil => simp [assocInsert, assocLookup]
  | cons p rest ih =>
      obtain ⟨k', v'⟩ := p
      by_cases h : k' = k
      · simp [assocInsert, assocLookup, h]
      · simp [assocInsert, assocLookup, h, ih]

theorem assocLookup_insert_ne {A : Type} (k₂ k : String) (v : A)
    (l : List (String × A)) (h : k₂ ≠ k) :
    assocLookup k₂ (assocInsert k v l) = assocLookup k₂ l := by
  induction l with
  | nil => simp [assocInsert, assocLookup, Ne.symm h]
  | cons p rest ih =>
      obtain ⟨k', v'⟩ := p
      by_cases hk : k' = k
      · subst hk
        simp [assocInsert, assocLookup, Ne.symm h]
      · simp only [assocInsert, if_neg hk, assocLookup]
        by_cases hk2 : k' = k₂
        · simp [hk2]
        · simp [hk2, ih]
theorem assocLookup_erase_ne {A : Type} (k₂ k : String)
    (l : List (String × A)) (h : k₂ ≠ k) :
    assocLookup k₂ (assocErase k l) = assocLookup k₂ l := by
  induction l with
  | nil => simp [assocErase, assocLookup]
  | cons p rest ih =>
      obtain ⟨k', v'⟩ := p
      by_cases hk : k' = k
      · subst hk
        simp [assocErase, assocLookup, Ne.symm h]
      · simp only [assocErase, if_neg hk, assocLookup]
        by_cases hk2 : k' = k₂
        · simp [hk2]
        · simp [hk2, ih]
theorem assocLookup_eq_none_of_not_mem {A : Type} (k : String)
    (l : List (String × A)) (h : k ∉ l.map Prod.fst) :
    assocLookup k l = none := by
  induction l with
  | nil => simp [assocLookup]
  | cons p rest ih =>
      obtain ⟨k', v'⟩ := p
      simp only [List.map_cons, List.mem_cons] at h
      push_neg at h
      simp [assocLookup, Ne.symm h.1, ih h.2]
theorem assocLookup_erase_self {A : Type} (k : String)
    (l : List (String × A)) (h : (l.map Prod.fst).Nodup) :
    assocLookup k (assocErase k l) = none := by
  induction l with
  | nil => simp [assocErase, assocLookup]
  | cons p rest ih =>
      obtain ⟨k', v'⟩ := p
      simp only [List.map_cons, List.nodup_cons] at h
      by_cases hk : k' = k
      · subst hk
        simp only [assocErase, if_pos rfl]
        exact assocLookup_eq_none_of_not_mem k' rest h.1
      · simp [assocErase, assocLookup, hk, ih h.2]
theorem mem_assocInsert {A : Type} (p : String × A) (k : String) (v : A)
    (l : List (String × A)) (h : p ∈ assocInsert k v l) :
    p = (k, v) ∨ p ∈ l := by
  induction l with
  | nil => simpa [assocInsert] using h
  | cons q rest ih =>
      obtain ⟨k', v'⟩ := q
      by_cases hk : k' = k
      · simp only [assocInsert, if_pos hk, List.mem_cons] at h
        rcases h with h | h
        · exact Or.inl h
        · exact Or.inr (List.mem_cons_of_mem _ h)
      · simp only [assocInsert, if_neg hk, List.mem_cons] at h
        rcases h with h | h
        · exact Or.inr (by simp [h])
        · rcases ih h with h' | h'
          · exact Or.inl h'
          · exact Or.inr (List.mem_cons_of_mem _ h')

theorem mem_assocErase {A : Type} (p : String × A) (k : String)
    (l : List (String × A)) (h : p ∈ assocErase k l) : p ∈ l := by
  induction l with
  | nil => simp [assocErase] at h
  | cons q rest ih =>
      obtain ⟨k', v'⟩ := q
      by_cases hk : k' = k
      · simp only [assocErase, if_pos hk] at h
        exact List.mem_cons_of_mem _ h
      · simp only [assocErase, if_neg hk, List.mem_cons] at h
        rcases h with h | h
        · simp [h]
        · exact List.mem_cons_of_mem _ (ih h)

theorem length_filter_partition {A : Type} (p : A → Bool) (l : List A) :
    (l.filter p).length + (l.filter (fun a => !(p a))).length = l.length := by
  induction l with
  | nil => simp
  | cons a rest ih =>
      cases hp : p a <;> simp [List.filter, hp] <;> omega

theorem fst_mem_assocInsert {A : Type} (x k : String) (v : A)
    (l : List (String × A)) (h : x ∈ (assocInsert k v l).map Prod.fst) :
    x = k ∨ x ∈ l.map Prod.fst := by
  simp only [List.mem_map] at h ⊢
  obtain ⟨p, hp, hx⟩ := h
  rcases mem_assocInsert p k v l hp with h' | h'
  · subst h'
    exact Or.inl hx.symm
  · exact Or.inr ⟨p, h', hx⟩

theorem nodup_assocInsert {A : Type} (k : String) (v : A)
    (l : List (String × A)) (h : (l.map Prod.fst).Nodup) :
    ((assocInsert k v l).map Prod.fst).Nodup := by
  induction l with
  | nil => simp [assocInsert]
  | cons p rest ih =>
      obtain ⟨k', v'⟩ := p
      simp only [List.map_cons, List.nodup_cons] at h
      by_cases hk : k' = k
      · subst hk
        rw [show assocInsert k' v ((k', v') :: rest) = (k', v) :: rest from by
          simp [assocInsert]]
        simp only [List.map_cons, List.nodup_cons]
        exact ⟨h.1, h.2⟩
      · simp only [assocInsert, if_neg hk, List.map_cons, List.nodup_cons]
        refine ⟨?_, ih h.2⟩
        intro hmem
        rcases fst_mem_assocInsert k' k v rest hmem with h' | h'
        · exact hk h'
        · exact h.1 h'

/-- C1: `set(k, v)` with the default options (permanent, zero TTL) followed
immediately by `get(k)` returns exactly the stored value, for every key,
value, starting state, and pair of clock readings. -/
theorem set_get_roundtrip {V : Type} (st : MemoryStore V) (t₀ t₁ : Nat)
    (k : JSKey) (v : V) :
    (((st.set t₀ k v defaultOptions).1).get t₁ k).2 = some v := by
  simp [MemoryStore.set, MemoryStore.get, assocLookup_insert_self, mkStoreItem,
    defaultOptions]

/-- C10: a `null` key and an `undefined` key both canonicalize to the
empty-string identity, so they alias one storage slot: `set(null, v)` returns
`true` and a subsequent `get(undefined)` returns `v`, and conversely. -/
theorem null_undefined_alias {V : Type} (st : MemoryStore V) (t₀ t₁ : Nat)
    (v w : V) :
    (st.set t₀ JSKey.jsNull v defaultOptions).2 = true ∧
    (((st.set t₀ JSKey.jsNull v defaultOptions).1).get t₁
      JSKey.jsUndefined).2 = some v ∧
    (st.set t₀ JSKey.jsUndefined w defaultOptions).2 = true ∧
    (((st.set t₀ JSKey.jsUndefined w defaultOptions).1).get t₁
      JSKey.jsNull).2 = some w ∧
    resolveKey JSKey.jsNull = "" ∧ resolveKey JSKey.jsUndefined = "" := by
  refine ⟨rfl, ?_, rfl, ?_, rfl, rfl⟩ <;>
    simp [MemoryStore.set, MemoryStore.get, resolveKey, SafeGetString,
      assocLookup_insert_self, mkStoreItem, defaultOptions]

/-- C7, counterexample: on a store whose sweeper is running with the default
interval 60000, `startCleanupTask(100)` reports `false` ("already running")
but the configured sweep interval has changed to 100 — the numeric argument
is consumed before the running-state check. -/
theorem start_sweeper_interval_changed :
    ((((MemoryStore.init Nat).startCleanupTask none).1).startCleanupTask
        (some 100)).2 = false ∧
    (((((MemoryStore.init Nat).startCleanupTask none).1).startCleanupTask
        (some 100)).1).cleanupIntervalMs = 100 ∧
    (((MemoryStore.init Nat).startCleanupTask none).1).cleanupIntervalMs
        = 60000 := by
  decide

/-- C7, amended: calling `startCleanupTask` while the sweeper is running
reports `false` and leaves the entry table and the running state unchanged,
but a numeric interval argument does overwrite `cleanupIntervalMs` before the
running-state check; with no argument the call is a complete no-op. -/
theorem start_sweeper_running_reports_false {V : Type} (st : MemoryStore V)
    (n : Nat) (hRun : st.stopCleanup = false) :
    st.startCleanupTask (some n) = ({ st with cleanupIntervalMs := n }, false) ∧
    st.startCleanupTask none = (st, false) := by
  obtain ⟨s, kw, sc, ci⟩ := st
  cases hRun
  constructor <;> rfl

theorem start_sweeper_running_reports_false_witness :
    (((MemoryStore.init Nat).startCleanupTask none).1).stopCleanup = false ∧
    ((((MemoryStore.init Nat).startCleanupTask none).1).startCleanupTask
        (some 100)
      = ({ ((MemoryStore.init Nat).startCleanupTask none).1 with
            cleanupIntervalMs := 100 }, false) ∧
    (((MemoryStore.init Nat).startCleanupTask none).1).startCleanupTask none
      = (((MemoryStore.init Nat).startCleanupTask none).1, false)) :=
  ⟨by decide, start_sweeper_running_reports_false _ 100 (by decide)⟩

/-- C9: the handle id is `"key_" ++ <steady-clock sample>`, so two handles
whose creations observe the same clock sample receive the same id, whatever
their stores and initial values — the code does not guarantee distinct ids
under rapid creation. -/
theorem mutable_key_id_collision {V : Type} (st₁ st₂ : MemoryStore V)
    (t : Nat) (iv₁ iv₂ : JSKey) :
    handleId (st₁.createMutableKey t iv₁).2
      = handleId (st₂.createMutableKey t iv₂).2 ∧
    handleId (st₁.createMutableKey t iv₁).2 = "key_" ++ toString t :=
  ⟨rfl, rfl⟩

/-- C8: key canonicalization is total — `set` reports success on every key
shape, lookups always resolve to some identity string, and an object that
cannot be encoded (no `__keyId`, `JSON.stringify` yields no string) degrades
to the fixed placeholder `"[object Object]"`. -/
theorem canonicalization_total {V : Type} (k : JSKey) (st : MemoryStore V)
    (now t : Nat) (v : V) (o : SetOptions) :
    (st.set now k v o).2 = true ∧
    (∃ s : String, resolveKey k = s) ∧
    resolveKey (JSKey.jsObj none none) = "[object Object]" ∧
    ((st.get t k).2 = none ∨ ∃ w, (st.get t k).2 = some w) := by
  refine ⟨rfl, ⟨resolveKey k, rfl⟩, rfl, ?_⟩
  cases (st.get t k).2
  · exact Or.inl rfl
  · exact Or.inr ⟨_, rfl⟩

/-- C5: `size` reads the raw table occupancy without mutating the store: it
returns the table length, which equals the number of live (enumerable)
entries plus the number of expired-but-not-yet-swept entries — so expired
entries still count until a sweep or lazy read removes them. -/
theorem size_raw_occupancy {V : Type} (st : MemoryStore V) (now : Nat) :
    st.size.1 = st ∧
    st.size.2 = st.store.length ∧
    st.size.2 = ((st.keys now).2).length +
      (st.store.filter (fun p => StoreItem.specExpired now p.2)).length := by
  refine ⟨rfl, rfl, ?_⟩
  simp only [MemoryStore.size, MemoryStore.keys, List.length_map]
  rw [show st.store.filter (fun p => StoreItem.specExpired now p.2)
      = st.store.filter (fun p => !(StoreItem.isLive now p.2)) from
    List.filter_congr (fun p _ => by
      rw [isLive_eq_not_specExpired, Bool.not_not])]
  exact (length_filter_partition (fun p => StoreItem.isLive now p.2)
    st.store).symm

/-- C6: `keys` returns exactly the canonical identities and `all` exactly the
stored values of the entries that are not excluded, where an entry is
excluded iff it is not permanent, has a positive TTL, and its deadline has
passed; neither enumeration mutates the table, so expired-but-unswept
entries survive the call. -/
theorem keys_all_enumeration {V : Type} (st : MemoryStore V) (now : Nat) :
    (st.keys now).1 = st ∧ (st.all now).1 = st ∧
    (st.keys now).2 =
      (st.store.filter (fun p => !(StoreItem.specExpired now p.2))).map
        Prod.fst ∧
    (st.all now).2 =
      (st.store.filter (fun p => !(StoreItem.specExpired now p.2))).map
        (fun p => p.2.value) := by
  have hf : st.store.filter (fun p => StoreItem.isLive now p.2)
      = st.store.filter (fun p => !(StoreItem.specExpired now p.2)) :=
    List.filter_congr (fun p _ => isLive_eq_not_specExpired now p.2)
  exact ⟨rfl, rfl, by simp only [MemoryStore.keys, hf],
    by simp only [MemoryStore.all, hf]⟩

/-- C2: after `set(k, v, {permanent:false, ttlMs:T})` with `T > 0` at time
`t₀`, on a table with unique keys, `get(k)` strictly before `t₀ + T` returns
`v`, and `get(k)` at or after `t₀ + T` returns absent and removes the entry
from the table — purely by the lazy eviction inside `get`, with no sweeper
involved. -/
theorem ttl_expiry {V : Type} (st : MemoryStore V) (t₀ t₁ t₂ T : Nat)
    (k : JSKey) (v : V) (hwf : StoreWF st) (hT : 0 < T)
    (hEarly : t₁ < t₀ + T) (hLate : t₀ + T ≤ t₂) :
    ((((st.set t₀ k v ⟨false, T⟩).1).get t₁ k).2 = some v) ∧
    ((((st.set t₀ k v ⟨false, T⟩).1).get t₂ k).2 = none) ∧
    (assocLookup (resolveKey k)
        (((((st.set t₀ k v ⟨false, T⟩).1).get t₂ k).1).store) = none) := by
  have hTd : decide (0 < T) = true := decide_eq_true hT
  have hitem : mkStoreItem t₀ k v (⟨false, T⟩ : SetOptions)
      = ⟨v, k, false, some (t₀ + T), T⟩ := by
    simp [mkStoreItem, hTd]
  have hstore : ((st.set t₀ k v ⟨false, T⟩).1).store
      = assocInsert (resolveKey k) (⟨v, k, false, some (t₀ + T), T⟩ :
          StoreItem V) st.store := by
    simp only [MemoryStore.set, hitem]
  have hlook : assocLookup (resolveKey k) (((st.set t₀ k v ⟨false, T⟩).1).store)
      = some (⟨v, k, false, some (t₀ + T), T⟩ : StoreItem V) := by
    rw [hstore]
    exact assocLookup_insert_self _ _ _
  have hEarlyd : decide (t₀ + T ≤ t₁) = false :=
    decide_eq_false (Nat.not_le.mpr hEarly)
  have hLated : decide (t₀ + T ≤ t₂) = true := decide_eq_true hLate
  refine ⟨?_, ?_, ?_⟩
  · simp [MemoryStore.get, hlook, deadlinePassed, hTd, hEarlyd]
  · simp [MemoryStore.get, hlook, deadlinePassed, hTd, hLated]
  · have hst2 : ((((st.set t₀ k v ⟨false, T⟩).1).get t₂ k).1).store
        = assocErase (resolveKey k) (((st.set t₀ k v ⟨false, T⟩).1).store) := by
      simp [MemoryStore.get, hlook, deadlinePassed, hTd, hLated]
    rw [hst2, hstore]
    exact assocLookup_erase_self _ _ (nodup_assocInsert _ _ _ hwf)

theorem ttl_expiry_witness :
    StoreWF (MemoryStore.init Nat) ∧ 0 < 5 ∧ 3 < 0 + 5 ∧ 0 + 5 ≤ 7 ∧
    (((((MemoryStore.init Nat).set 0 (JSKey.jsStr "s") 42 ⟨false, 5⟩).1).get 3
        (JSKey.jsStr "s")).2 = some 42 ∧
      ((((MemoryStore.init Nat).set 0 (JSKey.jsStr "s") 42 ⟨false, 5⟩).1).get 7
        (JSKey.jsStr "s")).2 = none ∧
      assocLookup (resolveKey (JSKey.jsStr "s"))
        ((((((MemoryStore.init Nat).set 0 (JSKey.jsStr "s") 42
            ⟨false, 5⟩).1).get 7 (JSKey.jsStr "s")).1).store) = none) :=
  ⟨List.nodup_nil, by decide, by decide, by decide,
    ttl_expiry (MemoryStore.init Nat) 0 3 7 5 (JSKey.jsStr "s") 42
      List.nodup_nil (by decide) (by decide) (by decide)⟩

theorem mkStoreItem_sentinel {V : Type} (now : Nat) (k : JSKey) (v : V)
    (o : SetOptions) :
    (mkStoreItem now k v o).expiresAt = none ↔
      (o.isPermanent = true ∨ o.maxAgeMs = 0) := by
  cases hp : o.isPermanent
  · rcases Nat.eq_zero_or_pos o.maxAgeMs with hm | hm
    · simp [mkStoreItem, hp, hm]
    · simp [mkStoreItem, hp, decide_eq_true hm, Nat.pos_iff_ne_zero.mp hm]
  · simp [mkStoreItem, hp]

theorem get_fst_store_cases {V : Type} (st : MemoryStore V) (now : Nat)
    (k : JSKey) :
    ((st.get now k).1).store = st.store ∨
    ((st.get now k).1).store = assocErase (resolveKey k) st.store := by
  simp only [MemoryStore.get]
  cases assocLookup (resolveKey k) st.store with
  | none => exact Or.inl rfl
  | some it =>
      dsimp only
      split
      · split
        · exact Or.inr rfl
        · exact Or.inl rfl
      · exact Or.inl rfl

theorem has_fst_store_cases {V : Type} (st : MemoryStore V) (now : Nat)
    (k : JSKey) :
    ((st.has now k).1).store = st.store ∨
    ((st.has now k).1).store = assocErase (resolveKey k) st.store := by
  simp only [MemoryStore.has]
  cases assocLookup (resolveKey k) st.store with
  | none => exact Or.inl rfl
  | some it =>
      dsimp only
      split
      · split
        · exact Or.inr rfl
        · exact Or.inl rfl
      · exact Or.inl rfl

theorem del_fst_store_cases {V : Type} (st : MemoryStore V) (k : JSKey) :
    ((st.del k).1).store = st.store ∨
    ((st.del k).1).store = assocErase (resolveKey k) st.store := by
  simp only [MemoryStore.del]
  cases assocLookup (resolveKey k) st.store with
  | none => exact Or.inl rfl
  | some it => exact Or.inr rfl

theorem startCleanupTask_store {V : Type} (st : MemoryStore V)
    (i : Option Nat) : ((st.startCleanupTask i).1).store = st.store := by
  unfold MemoryStore.startCleanupTask
  cases i <;> dsimp only <;> split <;> rfl

theorem stopCleanupTask_store {V : Type} (st : MemoryStore V) :
    (st.stopCleanupTask.1).store = st.store := by
  unfold MemoryStore.stopCleanupTask
  split <;> rfl

theorem ttlInvariant_applyOp {V : Type} (st : MemoryStore V) (op : StoreOp V)
    (h : ttlInvariant st) : ttlInvariant (applyOp st op) := by
  cases op with
  | opSet now k v o =>
      intro p hp
      simp only [applyOp, MemoryStore.set] at hp
      rcases mem_assocInsert p _ _ _ hp with h' | h'
      · rw [h']
        exact mkStoreItem_sentinel now k v o
      · exact h p h'
  | opGet now k =>
      intro p hp
      simp only [applyOp] at hp
      rcases get_fst_store_cases st now k with hc | hc <;> rw [hc] at hp
      · exact h p hp
      · exact h p (mem_assocErase p _ _ hp)
  | opHas now k =>
      intro p hp
      simp only [applyOp] at hp
      rcases has_fst_store_cases st now k with hc | hc <;> rw [hc] at hp
      · exact h p hp
      · exact h p (mem_assocErase p _ _ hp)
  | opDelete k =>
      intro p hp
      simp only [applyOp] at hp
      rcases del_fst_store_cases st k with hc | hc <;> rw [hc] at hp
      · exact h p hp
      · exact h p (mem_assocErase p _ _ hp)
  | opClear =>
      intro p hp
      simp [applyOp, MemoryStore.clear] at hp
  | opKeys now => exact fun p hp => h p hp
  | opAll now => exact fun p hp => h p hp
  | opGetKeys now => exact fun p hp => h p hp
  | opSize => exact fun p hp => h p hp
  | opCleanup now =>
      intro p hp
      simp only [applyOp, MemoryStore.cleanupExpiredItems] at hp
      exact h p (List.mem_of_mem_filter hp)
  | opStart i =>
      intro p hp
      simp only [applyOp] at hp
      rw [startCleanupTask_store] at hp
      exact h p hp
  | opStop =>
      intro p hp
      simp only [applyOp] at hp
      rw [stopCleanupTask_store] at hp
      exact h p hp
  | opCreateKey t iv => exact fun p hp => h p hp

theorem ttlInvariant_runOps {V : Type} (ops : List (StoreOp V))
    (st : MemoryStore V) (h : ttlInvariant st) :
    ttlInvariant (runOps st ops) := by
  induction ops generalizing st with
  | nil => exact h
  | cons op rest ih => exact ih _ (ttlInvariant_applyOp st op h)

/-- C3: the item `Set` builds has `expiresAt = ` "never" iff it is permanent
or zero-TTL, and otherwise `expiresAt` is exactly the set time plus the TTL;
and the never-iff invariant holds for every entry of the table reached from
a fresh store by any sequence of operations. -/
theorem expiry_deadline_invariant {V : Type} (now : Nat) (k : JSKey) (v : V)
    (o : SetOptions) (ops : List (StoreOp V)) :
    ((mkStoreItem now k v o).expiresAt = none ↔
      (o.isPermanent = true ∨ o.maxAgeMs = 0)) ∧
    (o.isPermanent = false → 0 < o.maxAgeMs →
      (mkStoreItem now k v o).expiresAt = some (now + o.maxAgeMs)) ∧
    ttlInvariant (runOps (MemoryStore.init V) ops) := by
  refine ⟨mkStoreItem_sentinel now k v o, ?_, ?_⟩
  · intro hp hm
    simp [mkStoreItem, hp, decide_eq_true hm]
  · refine ttlInvariant_runOps ops _ ?_
    intro p hp
    simp [MemoryStore.init] at hp

theorem expiry_deadline_invariant_witness :
    (((mkStoreItem 2 (JSKey.jsStr "k") (5 : Nat) ⟨false, 7⟩).expiresAt = none ↔
      ((false : Bool) = true ∨ (7 : Nat) = 0)) ∧
    ((false : Bool) = false → 0 < (7 : Nat) →
      (mkStoreItem 2 (JSKey.jsStr "k") (5 : Nat) ⟨false, 7⟩).expiresAt
        = some (2 + 7)) ∧
    ttlInvariant (runOps (MemoryStore.init Nat)
      [StoreOp.opSet 0 (JSKey.jsStr "a") 1 ⟨false, 3⟩,
       StoreOp.opSet 1 (JSKey.jsStr "b") 2 ⟨true, 9⟩])) :=
  expiry_deadline_invariant 2 (JSKey.jsStr "k") 5 ⟨false, 7⟩
    [StoreOp.opSet 0 (JSKey.jsStr "a") 1 ⟨false, 3⟩,
     StoreOp.opSet 1 (JSKey.jsStr "b") 2 ⟨true, 9⟩]

theorem resolveKey_proxy_kid_irrel (kid kid₂ : String) (cv : JSKey) :
    resolveKey (JSKey.jsProxy kid cv) = resolveKey (JSKey.jsProxy kid₂ cv) := by
  cases cv <;> simp [resolveKey, SafeGetString, jsonOf]

/-- C4: rebinding a handle (the proxy's `set` trap writing `currentValue`)
makes every subsequent operation resolve the handle to the identity of the
new current value — resolution depends only on `currentValue`, not on the
immutable `__keyId` — and, when the new identity differs from the old one, a
subsequent `set` or `delete` through the rebound handle leaves the entry
stored under the old identity exactly as it was. -/
theorem handle_rebind_resolution {V : Type} (st : MemoryStore V) (now : Nat)
    (kid kid₂ : String) (cvOld cvNew : JSKey) (v : V) (o : SetOptions)
    (hdiff : resolveKey (JSKey.jsProxy kid cvNew)
      ≠ resolveKey (JSKey.jsProxy kid cvOld)) :
    proxySetValue (JSKey.jsProxy kid cvOld) cvNew = JSKey.jsProxy kid cvNew ∧
    resolveKey (JSKey.jsProxy kid₂ cvNew)
      = resolveKey (JSKey.jsProxy kid cvNew) ∧
    assocLookup (resolveKey (JSKey.jsProxy kid cvOld))
        (((st.set now (proxySetValue (JSKey.jsProxy kid cvOld) cvNew) v
          o).1).store)
      = assocLookup (resolveKey (JSKey.jsProxy kid cvOld)) st.store ∧
    assocLookup (resolveKey (JSKey.jsProxy kid cvOld))
        (((st.del (proxySetValue (JSKey.jsProxy kid cvOld) cvNew)).1).store)
      = assocLookup (resolveKey (JSKey.jsProxy kid cvOld)) st.store := by
  refine ⟨rfl, resolveKey_proxy_kid_irrel kid₂ kid cvNew, ?_, ?_⟩
  · simp only [proxySetValue, MemoryStore.set]
    exact assocLookup_insert_ne _ _ _ _ (Ne.symm hdiff)
  · simp only [proxySetValue]
    rcases del_fst_store_cases st (JSKey.jsProxy kid cvNew) with hc | hc <;>
        rw [hc]
    exact assocLookup_erase_ne _ _ _ (Ne.symm hdiff)

theorem handle_rebind_resolution_witness :
    resolveKey (JSKey.jsProxy "key_1" (JSKey.jsStr "b"))
      ≠ resolveKey (JSKey.jsProxy "key_1" (JSKey.jsStr "a")) ∧
    (proxySetValue (JSKey.jsProxy "key_1" (JSKey.jsStr "a")) (JSKey.jsStr "b")
        = JSKey.jsProxy "key_1" (JSKey.jsStr "b") ∧
      resolveKey (JSKey.jsProxy "key_2" (JSKey.jsStr "b"))
        = resolveKey (JSKey.jsProxy "key_1" (JSKey.jsStr "b")) ∧
      assocLookup (resolveKey (JSKey.jsProxy "key_1" (JSKey.jsStr "a")))
          (((((((MemoryStore.init Nat).set 0 (JSKey.jsStr "a") 1
              defaultOptions).1)).set 1
            (proxySetValue (JSKey.jsProxy "key_1" (JSKey.jsStr "a"))
              (JSKey.jsStr "b")) 2 defaultOptions).1).store)
        = assocLookup (resolveKey (JSKey.jsProxy "key_1" (JSKey.jsStr "a")))
            ((((MemoryStore.init Nat).set 0 (JSKey.jsStr "a") 1
              defaultOptions).1).store) ∧
      assocLookup (resolveKey (JSKey.jsProxy "key_1" (JSKey.jsStr "a")))
          (((((MemoryStore.init Nat).set 0 (JSKey.jsStr "a") 1
              defaultOptions).1).del
            (proxySetValue (JSKey.jsProxy "key_1" (JSKey.jsStr "a"))
              (JSKey.jsStr "b"))).1).store
        = assocLookup (resolveKey (JSKey.jsProxy "key_1" (JSKey.jsStr "a")))
            ((((MemoryStore.init Nat).set 0 (JSKey.jsStr "a") 1
              defaultOptions).1).store)) :=
  ⟨by decide,
    handle_rebind_resolution
      (((MemoryStore.init Nat).set 0 (JSKey.jsStr "a") 1 defaultOptions).1)
      1 "key_1" "key_2" (JSKey.jsStr "a") (JSKey.jsStr "b") 2 defaultOptions
      (by decide)⟩
